import Mathlib

/-!
Verification of the HOCON parseable layer (src/lib/src/parseable.cc) and the
render-options record (src/lib/inc/hocon/config_render_options.hpp).

The embedding follows the source file `parseable.cc`.  The downstream stages
that `parseable.cc` delegates to but that are not part of this repository
snapshot (the tokenizer, `config_document_parser`, `config_parser`, and the
filesystem) are modelled as an explicit environment `ParseEnv` of black-box
functions; every throwing C++ call is modelled as `Except` with the thrown
message as the error payload (in the source, all exceptions caught by
`parse_value` / `parse_document` are `std::runtime_error`s carrying a message).
-/

namespace Hocon

/-- `config_syntax` (JSON / CONF / unspecified), per the parse-options surface. -/
inductive ConfigSyntax
  | json
  | conf
  | unspecified
deriving DecidableEq, Repr

/-- `ends_with` from parseable.cc lines 21-27: suffix test via
`fullString.compare(fullString.length() - ending.length(), ending.length(), ending) == 0`. -/
def ends_with (fullString ending : String) : Bool :=
  if ending.length ≤ fullString.length then
    decide (fullString.toList.drop (fullString.length - ending.length) = ending.toList)
  else
    false

/-- `parseable::syntax_from_extension` (parseable.cc lines 86-94). -/
def syntax_from_extension (name : String) : ConfigSyntax :=
  if ends_with name ".json" then ConfigSyntax.json
  else if ends_with name ".conf" then ConfigSyntax.conf
  else ConfigSyntax.unspecified

/-- Modelled from the spec: the includer type itself (`config::default_includer`,
`simple_includer::make_full`, `with_fallback`) is declared outside this snapshot;
the spec says an application includer is composed with the default so the default
is always reachable as a fallback, and then completed to a "full" includer. -/
inductive Includer
  | app (name : String)
  | dflt
  | withFallback (first fallback : Includer)
  | full (inner : Includer)
deriving DecidableEq, Repr

/-- Whether the default includer is reachable through the fallback chain. -/
def reaches_default : Includer → Bool
  | Includer.dflt => true
  | Includer.app _ => false
  | Includer.withFallback first fallback => reaches_default first || reaches_default fallback
  | Includer.full inner => reaches_default inner

/-- `config_parse_options`: preferred syntax, allow-missing flag, optional origin
description, and the (optional) includer.  Mutators return modified copies. -/
structure ConfigParseOptions where
  syn : ConfigSyntax
  allow_missing : Bool
  origin_description : Option String
  includer : Option Includer
deriving DecidableEq, Repr

/-- `config_parse_options::set_syntax`: copy with the syntax replaced. -/
def ConfigParseOptions.setSyn (o : ConfigParseOptions) (s : ConfigSyntax) : ConfigParseOptions :=
  { o with syn := s }

/-- Modelled from the spec: `config_parse_options::append_includer` is outside
this snapshot; the spec says the engine composes an installed includer with the
given fallback, and installs the fallback itself when none is present. -/
def ConfigParseOptions.append_includer (o : ConfigParseOptions) (fallback : Includer) :
    ConfigParseOptions :=
  match o.includer with
  | none => { o with includer := some fallback }
  | some i => { o with includer := some (Includer.withFallback i fallback) }

/-- `config_parse_options::set_includer`: copy with the includer replaced. -/
def ConfigParseOptions.set_includer (o : ConfigParseOptions) (i : Includer) : ConfigParseOptions :=
  { o with includer := some i }

/-- Modelled from the spec: the default `config_parse_options()` constructor is
outside this snapshot; the spec says allow-missing defaults to false for a
top-level parse, with no preferred syntax, no origin override and no includer. -/
def default_parse_options : ConfigParseOptions :=
  ConfigParseOptions.mk ConfigSyntax.unspecified false none none

/-- The concrete kinds of parseable source (parseable.cc lines 321-384):
file, in-memory string, named resource, and not-found placeholder. -/
inductive SourceKind
  | file (path : String)
  | str (contents : String)
  | resources (resource : String)
  | notFound (what message : String)
deriving DecidableEq, Repr

/-- The virtual `guess_syntax`: `parseable_file` guesses from the extension
(lines 341-343); every other kind uses the base default UNSPECIFIED (122-124). -/
def guess_syntax_of : SourceKind → ConfigSyntax
  | SourceKind.file p => syntax_from_extension p
  | SourceKind.str _ => ConfigSyntax.unspecified
  | SourceKind.resources _ => ConfigSyntax.unspecified
  | SourceKind.notFound _ _ => ConfigSyntax.unspecified

/-- `parseable::fixup_options` (parseable.cc lines 104-120): resolve an
unspecified syntax via `guess_syntax`, default what is still unspecified to
CONF, append the default includer as fallback, then make the includer full. -/
def fixup_options_kind (kind : SourceKind) (base_options : ConfigParseOptions) :
    ConfigParseOptions :=
  let syn1 := if base_options.syn = ConfigSyntax.unspecified then guess_syntax_of kind
              else base_options.syn
  let syn2 := if syn1 = ConfigSyntax.unspecified then ConfigSyntax.conf else syn1
  let modified := base_options.setSyn syn2
  let modified2 := modified.append_includer Includer.dflt
  modified2.set_includer (Includer.full (modified2.includer.getD Includer.dflt))

/-- Index of the last occurrence of `c`, as computed by `std::string::rfind`
in `parseable::separate_filepath` (parseable.cc line 159). -/
def rfind_char : List Char → Char → Option Nat
  | [], _ => none
  | x :: xs, c =>
    match rfind_char xs c with
    | some i => some (i + 1)
    | none => if x = c then some 0 else none

/-- `parseable::separate_filepath` (parseable.cc lines 157-167): split a path at
the last '/', directory keeping the separator; no separator means empty dir. -/
def separate_filepath (path : String) : String × String :=
  match rfind_char path.toList '/' with
  | some i => (String.mk (path.toList.take (i + 1)), String.mk (path.toList.drop (i + 1)))
  | none => ("", path)

/-- A constructed parseable: its dynamic kind, its stored (fixed-up) options and
the current directory recorded by its include context.  `parseable_file`'s
constructor (lines 322-328) sets `cur_dir` to the directory part of its path;
the other constructors leave it empty. -/
structure Parseable where
  kind : SourceKind
  initialOptions : ConfigParseOptions
  cur_dir : String
deriving DecidableEq, Repr

/-- `parseable::new_file` followed by the `parseable_file` constructor. -/
def new_file (input_file_path : String) (options : ConfigParseOptions) : Parseable :=
  Parseable.mk (SourceKind.file input_file_path)
    (fixup_options_kind (SourceKind.file input_file_path) options)
    (separate_filepath input_file_path).1

/-- `parseable::new_string` followed by the `parseable_string` constructor. -/
def new_string (s : String) (options : ConfigParseOptions) : Parseable :=
  Parseable.mk (SourceKind.str s) (fixup_options_kind (SourceKind.str s) options) ""

/-- `parseable::new_not_found` followed by the `parseable_not_found` constructor. -/
def new_not_found (what message : String) (options : ConfigParseOptions) : Parseable :=
  Parseable.mk (SourceKind.notFound what message)
    (fixup_options_kind (SourceKind.notFound what message) options) ""

/-- The virtual `create_origin` of each kind (parseable.cc 337-339, 354-356,
368-370, 382-384), as the origin's description string. -/
def create_origin : SourceKind → String
  | SourceKind.file p => "file: " ++ p
  | SourceKind.str _ => "string"
  | SourceKind.resources r => r
  | SourceKind.notFound w _ => w

/-- `_initial_origin` from `post_construct` (lines 74-84): the options' origin
description when present, otherwise `create_origin`. -/
def initial_origin (src : Parseable) : String :=
  (src.initialOptions.origin_description).getD (create_origin src.kind)

/-- `parseable::relative_to` (parseable.cc lines 130-143), path computation:
keep an absolute path (leading '/'), else prepend the current directory. -/
def starts_with_slash (s : String) : Bool :=
  match s.toList with
  | [] => false
  | c :: _ => c = '/'

/-- The `resource` string computed by `relative_to` (lines 136-141):
`!file_name.empty() && '/' == file_name[0]` keeps the path, else prepends. -/
def relative_resource (cur_dir file_name : String) : String :=
  if file_name ≠ "" ∧ starts_with_slash file_name = true then file_name
  else cur_dir ++ file_name

/-- `parseable::relative_to` (lines 130-143): a new file parseable on the
resolved resource path, carrying the include context's parse options. -/
def relative_to (src : Parseable) (file_name : String) : Parseable :=
  new_file (relative_resource src.cur_dir file_name) src.initialOptions

/-- Semantic config value, abstracted to what `parseable.cc` inspects: an
object (origin description and fields) or any non-object value (origin
description and its `value_type_name()`). -/
inductive Value
  | object (originDesc : String) (fields : List (String × Value))
  | nonObject (originDesc : String) (typeName : String)

/-- The exceptions thrown by parseable.cc, by kind:
`io_exception(origin, what)` (line 235), `parse_exception(origin, msg)`
(line 193), `wrong_type_exception(origin, path, expected, actual)` (line 177),
and plain `config_exception(message)` (line 289). -/
inductive ConfigError
  | io (originDesc message : String)
  | parseError (originDesc message : String)
  | wrongType (originDesc path expected actual : String)
  | generic (message : String)
deriving DecidableEq, Repr

/-- Whether an error is the io kind. -/
def ConfigError.is_io : ConfigError → Bool
  | ConfigError.io _ _ => true
  | ConfigError.parseError _ _ => false
  | ConfigError.wrongType _ _ _ _ => false
  | ConfigError.generic _ => false

/-- `force_parsed_to_object` (parseable.cc lines 173-179). -/
def force_parsed_to_object : Value → Except ConfigError Value
  | Value.object o fields => Except.ok (Value.object o fields)
  | Value.nonObject o tn =>
    Except.error (ConfigError.wrongType o "" "object at file root" tn)

/-- AST node of a config document, abstracted to what `parse_document` builds:
an object node with children, or any other node. -/
inductive ConfigNode
  | nodeObject (children : List ConfigNode)
  | nodeOther (tag : String)

/-- `simple_config_document`, abstracted to its root: the root node list and
the root's origin description (parseable.cc lines 284-287). -/
structure ConfigDocument where
  rootChildren : List ConfigNode
  rootOrigin : String

/-- The environment of black-box collaborators: the filesystem (`none` means
the open fails) and the downstream document/value parsers
(`config_document_parser::parse` + `config_parser::parse`, not in this
snapshot), each taking the stream contents, origin description and options and
either returning a result or failing with a runtime-error message. -/
structure ParseEnv where
  readFile : String → Option String
  parseStream : String → String → ConfigParseOptions → Except String Value
  parseStreamDoc : String → String → ConfigParseOptions → Except String ConfigDocument

/-- The virtual `reader()` of each kind (parseable.cc lines 330-335, 350-352,
364-366, 378-380): file open failure throws `runtime_error("not found")`;
resources and not-found sources throw `config_exception`s unconditionally. -/
def reader (env : ParseEnv) : SourceKind → Except String String
  | SourceKind.file p =>
    match env.readFile p with
    | some contents => Except.ok contents
    | none => Except.error "not found"
  | SourceKind.str s => Except.ok s
  | SourceKind.resources _ => Except.error "reader() should not be called on resources"
  | SourceKind.notFound _ message => Except.error message

/-- `parseable::raw_parse_value` (lines 240-261): open the reader, then run the
downstream parsers.  `content_type()` is UNSPECIFIED for every kind here
(lines 126-128), so the options pass through unchanged. -/
def raw_parse_value (env : ParseEnv) (src : Parseable) (origin : String)
    (options : ConfigParseOptions) : Except String Value :=
  match reader env src.kind with
  | Except.error e => Except.error e
  | Except.ok stream => env.parseStream stream origin options

/-- `parseable::parse_value(origin, final_options)` (lines 226-238): catch any
runtime error; allow-missing yields an empty object at the origin suffixed
" (not found)", otherwise an io error wrapping the message at the origin. -/
def parse_value_at (env : ParseEnv) (src : Parseable) (origin : String)
    (final_options : ConfigParseOptions) : Except ConfigError Value :=
  match raw_parse_value env src origin final_options with
  | Except.ok v => Except.ok v
  | Except.error msg =>
    if final_options.allow_missing then
      Except.ok (Value.object (origin ++ " (not found)") [])
    else
      Except.error (ConfigError.io origin msg)

/-- The origin used by `parse_value` / `parse_document` (lines 220-222,
271-274): the fixed-up options' origin description override, else the
parseable's initial origin. -/
def effective_origin (src : Parseable) (options : ConfigParseOptions) : String :=
  (options.origin_description).getD (initial_origin src)

/-- `parseable::parse_value(base_options)` (lines 216-224). -/
def parse_value (env : ParseEnv) (src : Parseable) (base_options : ConfigParseOptions) :
    Except ConfigError Value :=
  let options := fixup_options_kind src.kind base_options
  parse_value_at env src (effective_origin src options) options

/-- `parseable::raw_parse_document` (lines 294-315). -/
def raw_parse_document (env : ParseEnv) (src : Parseable) (origin : String)
    (options : ConfigParseOptions) : Except String ConfigDocument :=
  match reader env src.kind with
  | Except.error e => Except.error e
  | Except.ok stream => env.parseStreamDoc stream origin options

/-- `parseable::parse_document(origin, final_options)` (lines 278-292): catch
any runtime error; allow-missing yields a document whose root holds a single
empty object node at the unchanged origin, otherwise a generic config error
prefixed "exception loading ". -/
def parse_document_at (env : ParseEnv) (src : Parseable) (origin : String)
    (final_options : ConfigParseOptions) : Except ConfigError ConfigDocument :=
  match raw_parse_document env src origin final_options with
  | Except.ok d => Except.ok d
  | Except.error msg =>
    if final_options.allow_missing then
      Except.ok (ConfigDocument.mk [ConfigNode.nodeObject []] origin)
    else
      Except.error (ConfigError.generic ("exception loading " ++ origin ++ ": " ++ msg))

/-- `parseable::parse_document(base_options)` (lines 263-276). -/
def parse_document (env : ParseEnv) (src : Parseable) (base_options : ConfigParseOptions) :
    Except ConfigError ConfigDocument :=
  let options := fixup_options_kind src.kind base_options
  parse_document_at env src (effective_origin src options) options

/-- `parseable::MAX_INCLUDE_DEPTH` (parseable.cc line 59). -/
def MAX_INCLUDE_DEPTH : Nat := 50

/-- `parseable::to_string` (lines 145-147) returns `typeid(*this).name()`:
implementation-defined but constant per dynamic type; modelled by class name. -/
def Parseable.to_string (src : Parseable) : String :=
  match src.kind with
  | SourceKind.file _ => "hocon::parseable_file"
  | SourceKind.str _ => "hocon::parseable_string"
  | SourceKind.resources _ => "hocon::parseable_resources"
  | SourceKind.notFound _ _ => "hocon::parseable_not_found"

/-- The stack trace built at lines 190-192: `accumulate` of
`s + '\t' + p->to_string() + '\n'` over the stack. -/
def trace_of (stack : List Parseable) : String :=
  stack.foldl (fun s p => s ++ "\t" ++ p.to_string ++ "\n") ""

/-- The message of the depth-cap `parse_exception` (line 193). -/
def cycleMessage (stack : List Parseable) : String :=
  "include statements nested more than " ++ toString MAX_INCLUDE_DEPTH ++
    " times, you probably have a cycle in your includes. Trace:\n" ++ trace_of stack

/-- Depth of the per-thread stack; `none` models a thread whose
`thread_specific_ptr` currently holds no stack. -/
def stackDepth : Option (List Parseable) → Nat
  | none => 0
  | some l => l.length

/-- `parseable::parse(options)` (parseable.cc lines 181-206) as a transformer
of the per-thread stack state: create the stack lazily when absent; fail with
the cycle-trace parse error when the depth cap is hit (the stack untouched);
otherwise push, parse (`force_parsed_to_object(parse_value(options))`), and on
every exit pop and destroy the stack when it returns to empty (`scope_exit`,
lines 198-203). -/
def parse_st (env : ParseEnv) (src : Parseable) (options : ConfigParseOptions)
    (st : Option (List Parseable)) : Except ConfigError Value × Option (List Parseable) :=
  let pstack := st.getD []
  if MAX_INCLUDE_DEPTH ≤ pstack.length then
    (Except.error (ConfigError.parseError (initial_origin src) (cycleMessage pstack)),
     some pstack)
  else
    ((parse_value env src options).bind force_parsed_to_object,
     if pstack.isEmpty then none else some pstack)

/-- `parseable::parse()` (lines 208-210): force the value parsed with
default-constructed options to an object, with no stack bookkeeping. -/
def parse_noarg (env : ParseEnv) (src : Parseable) : Except ConfigError Value :=
  (parse_value env src default_parse_options).bind force_parsed_to_object

/-- `config_render_options` (config_render_options.hpp lines 119-124). -/
structure ConfigRenderOptions where
  origin_comments : Bool
  comments : Bool
  formatted : Bool
  json : Bool
deriving DecidableEq, Repr

/-- The default-constructed `config_render_options`: the declaration at
config_render_options.hpp lines 24-25 defaults every argument to true; the
constructor body (outside this snapshot) stores the arguments. -/
def ConfigRenderOptions.default_options : ConfigRenderOptions :=
  ConfigRenderOptions.mk true true true true

/-- Modelled from the spec: `config_render_options::concise()`'s body is
outside this snapshot; the spec says `concise()` is a factory producing
all-off. -/
def ConfigRenderOptions.concise : ConfigRenderOptions :=
  ConfigRenderOptions.mk false false false false

/-! ### Concrete sample inputs -/

/-- Base options with allow_missing set and no origin override. -/
def base_allow : ConfigParseOptions :=
  ConfigParseOptions.mk ConfigSyntax.unspecified true none none

/-- Base options with allow_missing unset and no origin override. -/
def base_strict : ConfigParseOptions :=
  ConfigParseOptions.mk ConfigSyntax.unspecified false none none

/-- An environment in which every file open fails. -/
def env_missing : ParseEnv :=
  ParseEnv.mk (fun _ => none) (fun _ _ _ => Except.error "stream")
    (fun _ _ _ => Except.error "stream")

/-- An environment in which "a.conf" exists and parses to a list root. -/
def env_list_root : ParseEnv :=
  ParseEnv.mk (fun _ => some "[1]")
    (fun _ _ _ => Except.ok (Value.nonObject "file: a.conf" "list"))
    (fun _ _ _ => Except.error "stream")

/-- The file source "a.conf" under allow-missing options. -/
def fileA : Parseable := new_file "a.conf" base_allow

/-- The file source "a.conf" under strict options. -/
def fileS : Parseable := new_file "a.conf" base_strict

/-! ### Helper lemmas -/

theorem fixup_allow_missing (kind : SourceKind) (b : ConfigParseOptions) :
    (fixup_options_kind kind b).allow_missing = b.allow_missing := by
  cases hb : b.includer <;>
    simp [fixup_options_kind, ConfigParseOptions.set_includer,
      ConfigParseOptions.append_includer, ConfigParseOptions.setSyn, hb]

theorem fixup_origin_description (kind : SourceKind) (b : ConfigParseOptions) :
    (fixup_options_kind kind b).origin_description = b.origin_description := by
  cases hb : b.includer <;>
    simp [fixup_options_kind, ConfigParseOptions.set_includer,
      ConfigParseOptions.append_includer, ConfigParseOptions.setSyn, hb]

theorem fixup_includer_eq (kind : SourceKind) (b : ConfigParseOptions) :
    (fixup_options_kind kind b).includer =
      some (Includer.full
        ((b.includer.map fun i => Includer.withFallback i Includer.dflt).getD Includer.dflt)) := by
  cases hb : b.includer <;>
    simp [fixup_options_kind, ConfigParseOptions.set_includer,
      ConfigParseOptions.append_includer, ConfigParseOptions.setSyn, hb]

theorem fixup_syn (kind : SourceKind) (b : ConfigParseOptions) :
    (fixup_options_kind kind b).syn =
      (if (if b.syn = ConfigSyntax.unspecified then guess_syntax_of kind else b.syn) =
          ConfigSyntax.unspecified
       then ConfigSyntax.conf
       else if b.syn = ConfigSyntax.unspecified then guess_syntax_of kind else b.syn) := by
  cases hb : b.includer <;>
    simp [fixup_options_kind, ConfigParseOptions.set_includer,
      ConfigParseOptions.append_includer, ConfigParseOptions.setSyn, hb]

theorem ends_with_iff (fullString ending : String) :
    ends_with fullString ending = true ↔ ending.toList <:+ fullString.toList := by
  have hlen : fullString.length = fullString.toList.length := rfl
  have hlen2 : ending.length = ending.toList.length := rfl
  unfold ends_with
  split
  · next h =>
    rw [hlen, hlen2] at h
    simp only [decide_eq_true_eq]
    constructor
    · intro hd
      refine ⟨fullString.toList.take (fullString.length - ending.length), ?_⟩
      conv_rhs => rw [← List.take_append_drop (fullString.length - ending.length)
        fullString.toList]
      rw [hd]
    · rintro ⟨t, ht⟩
      have hl : fullString.toList.length = t.length + ending.toList.length := by
        rw [← ht, List.length_append]
      rw [hlen, hlen2, hl]
      have : t.length + ending.toList.length - ending.toList.length = t.length := by omega
      rw [this, ← ht, List.drop_left]
  · next h =>
    rw [hlen, hlen2] at h
    simp only [Bool.false_eq_true, false_iff]
    rintro ⟨t, ht⟩
    have : fullString.toList.length = t.length + ending.toList.length := by
      rw [← ht, List.length_append]
    omega

theorem rfind_char_none {l : List Char} {c : Char} (h : rfind_char l c = none) : c ∉ l := by
  induction l with
  | nil => simp
  | cons x xs ih =>
    rw [rfind_char] at h
    cases hx : rfind_char xs c with
    | some k => rw [hx] at h; simp at h
    | none =>
      rw [hx] at h
      simp only [List.mem_cons]
      rintro (rfl | hmem)
      · simp at h
      · exact ih hx hmem

theorem rfind_char_some {l : List Char} {c : Char} {i : Nat} (h : rfind_char l c = some i) :
    ∃ hi : i < l.length, l[i] = c ∧ c ∉ l.drop (i + 1) := by
  induction l generalizing i with
  | nil => simp [rfind_char] at h
  | cons x xs ih =>
    rw [rfind_char] at h
    cases hx : rfind_char xs c with
    | some k =>
      rw [hx] at h
      have hik : i = k + 1 := by
        have := h
        simp at this
        omega
      subst hik
      obtain ⟨hk, hget, hnot⟩ := ih hx
      refine ⟨by simpa using Nat.succ_lt_succ hk, ?_, ?_⟩
      · simpa using hget
      · simpa using hnot
    | none =>
      rw [hx] at h
      by_cases hxc : x = c
      · rw [if_pos hxc] at h
        have hi0 : i = 0 := by
          have := h
          simp at this
          omega
        subst hi0
        refine ⟨Nat.succ_pos _, by simpa using hxc, ?_⟩
        simpa using rfind_char_none hx
      · rw [if_neg hxc] at h
        simp at h

theorem join_cons (s : String) (l : List String) :
    String.join (s :: l) = s ++ String.join l := by
  apply String.ext
  simp

theorem trace_of_aux (stack : List Parseable) (s : String) :
    List.foldl (fun acc p => acc ++ "\t" ++ p.to_string ++ "\n") s stack =
      s ++ String.join (stack.map fun p => "\t" ++ p.to_string ++ "\n") := by
  induction stack generalizing s with
  | nil => simp [String.join]
  | cons x xs ih =>
    rw [List.foldl_cons, ih, List.map_cons, join_cons]
    simp [String.append_assoc]

theorem trace_of_eq (stack : List Parseable) :
    trace_of stack = String.join (stack.map fun p => "\t" ++ p.to_string ++ "\n") := by
  have h := trace_of_aux stack ""
  rw [trace_of, h]
  apply String.ext
  simp

/-! ### The claims -/

/-- C2: for every call to `parse(options)` when the per-thread stack of
currently-being-parsed sources already holds 50 entries, the push fails before
any parsing happens (the result does not consult the reader or parsers, which
are universally quantified here): a parse error is raised whose trace names
every level, one line (tab, source name, newline) per source on the stack, and
the stack is left untouched. -/
theorem parse_depth_cap (env : ParseEnv) (src : Parseable) (options : ConfigParseOptions)
    (stack : List Parseable) (hfull : MAX_INCLUDE_DEPTH ≤ stack.length) :
    parse_st env src options (some stack) =
      (Except.error (ConfigError.parseError (initial_origin src) (cycleMessage stack)),
        some stack) ∧
    cycleMessage stack =
      "include statements nested more than 50 times, you probably have a cycle " ++
        "in your includes. Trace:\n" ++
        String.join (stack.map fun p => "\t" ++ p.to_string ++ "\n") := by
  constructor
  · rw [parse_st]
    simp [hfull]
  · have h50 : toString MAX_INCLUDE_DEPTH = "50" := rfl
    rw [cycleMessage, trace_of_eq, h50]
    apply String.ext
    simp

/-- C3: for every call to `parse(options)`, the per-thread include stack's
depth after the call equals its depth before the call, on the value path and
on both error paths; and the stack is destroyed (the thread-local slot holds
nothing) exactly when its depth returns to zero — in particular a stack
created lazily by the first `parse` call on a thread (`none` before the call)
is torn down again by the time that call returns. -/
theorem parse_stack_balanced (env : ParseEnv) (src : Parseable)
    (options : ConfigParseOptions) (st : Option (List Parseable)) :
    stackDepth (parse_st env src options st).2 = stackDepth st ∧
    ((parse_st env src options st).2 = none ↔ stackDepth st = 0) := by
  cases st with
  | none =>
    simp only [parse_st, Option.getD_none]
    rw [if_neg (by simp [MAX_INCLUDE_DEPTH])]
    simp [stackDepth]
  | some l =>
    simp only [parse_st, Option.getD_some]
    by_cases hl : MAX_INCLUDE_DEPTH ≤ l.length
    · rw [if_pos hl]
      refine ⟨rfl, ?_⟩
      simp only [stackDepth]
      constructor
      · intro h
        simp at h
      · intro h
        have he : l = [] := List.length_eq_zero.mp h
        subst he
        simp [MAX_INCLUDE_DEPTH] at hl
    · rw [if_neg hl]
      by_cases he : l = []
      · subst he
        simp [stackDepth]
      · simp [stackDepth, List.isEmpty_iff, he, List.length_eq_zero]

/-- C1: for every call to `parse_value` on any source, if reading or parsing
the underlying stream fails, then: when the effective (fixed-up) parse options
have allow_missing set, `parse_value` returns an empty object whose origin
description is the source's origin description with " (not found)" appended;
when allow_missing is not set, it raises an io error wrapping the original
failure message and the source's origin. -/
theorem parse_value_error_policy (env : ParseEnv) (src : Parseable)
    (base : ConfigParseOptions) (msg : String)
    (hod : base.origin_description = none)
    (hfail : raw_parse_value env src (initial_origin src) (fixup_options_kind src.kind base) =
      Except.error msg) :
    ((fixup_options_kind src.kind base).allow_missing = true →
      parse_value env src base =
        Except.ok (Value.object (initial_origin src ++ " (not found)") [])) ∧
    ((fixup_options_kind src.kind base).allow_missing = false →
      parse_value env src base = Except.error (ConfigError.io (initial_origin src) msg)) := by
  have heo : effective_origin src (fixup_options_kind src.kind base) = initial_origin src := by
    rw [effective_origin, fixup_origin_description, hod]
    rfl
  constructor
  · intro ham
    simp only [parse_value, heo, parse_value_at, hfail, ham, if_true]
  · intro ham
    simp only [parse_value, heo, parse_value_at, hfail, ham]
    simp

/-- C4: for a file source the guessed syntax is JSON exactly when the file name
ends with ".json", CONF exactly when it ends with ".conf" (and not ".json"),
and unspecified otherwise; `fixup_options` leaves no syntax unspecified,
defaulting a still-unspecified syntax to CONF after guessing. -/
theorem file_syntax_guess_and_fixup (p : String) (src : Parseable)
    (base : ConfigParseOptions) :
    (guess_syntax_of (SourceKind.file p) = ConfigSyntax.json ↔
      ".json".toList <:+ p.toList) ∧
    (guess_syntax_of (SourceKind.file p) = ConfigSyntax.conf ↔
      (¬ ".json".toList <:+ p.toList ∧ ".conf".toList <:+ p.toList)) ∧
    (guess_syntax_of (SourceKind.file p) = ConfigSyntax.unspecified ↔
      (¬ ".json".toList <:+ p.toList ∧ ¬ ".conf".toList <:+ p.toList)) ∧
    ((fixup_options_kind src.kind base).syn ≠ ConfigSyntax.unspecified) ∧
    ((fixup_options_kind src.kind base).syn =
      if base.syn = ConfigSyntax.unspecified then
        (if guess_syntax_of src.kind = ConfigSyntax.unspecified then ConfigSyntax.conf
         else guess_syntax_of src.kind)
      else base.syn) := by
  have hj := ends_with_iff p ".json"
  have hc := ends_with_iff p ".conf"
  have hsynEq : (fixup_options_kind src.kind base).syn =
      if base.syn = ConfigSyntax.unspecified then
        (if guess_syntax_of src.kind = ConfigSyntax.unspecified then ConfigSyntax.conf
         else guess_syntax_of src.kind)
      else base.syn := by
    rw [fixup_syn]
    by_cases hb : base.syn = ConfigSyntax.unspecified <;> simp [hb]
  refine ⟨?_, ?_, ?_, ?_, hsynEq⟩
  · rw [← hj]
    by_cases h1 : ends_with p ".json" <;> by_cases h2 : ends_with p ".conf" <;>
      simp [guess_syntax_of, syntax_from_extension, h1, h2]
  · rw [← hj, ← hc]
    by_cases h1 : ends_with p ".json" <;> by_cases h2 : ends_with p ".conf" <;>
      simp [guess_syntax_of, syntax_from_extension, h1, h2]
  · rw [← hj, ← hc]
    by_cases h1 : ends_with p ".json" <;> by_cases h2 : ends_with p ".conf" <;>
      simp [guess_syntax_of, syntax_from_extension, h1, h2]
  · rw [hsynEq]
    by_cases hb : base.syn = ConfigSyntax.unspecified <;>
      cases hg : guess_syntax_of src.kind <;> cases hbs : base.syn <;>
        simp_all

/-- Strings concatenate on their character lists. -/
theorem mk_append (a b : List Char) : String.mk a ++ String.mk b = String.mk (a ++ b) := rfl

theorem separate_filepath_eq_some {p : String} {i : Nat}
    (hr : rfind_char p.toList '/' = some i) :
    separate_filepath p =
      (String.mk (p.toList.take (i + 1)), String.mk (p.toList.drop (i + 1))) := by
  unfold separate_filepath
  rw [hr]

theorem separate_filepath_eq_none {p : String} (hr : rfind_char p.toList '/' = none) :
    separate_filepath p = ("", p) := by
  unfold separate_filepath
  rw [hr]

/-- C5: for every non-empty include path string, `relative_to` resolves it to a
file source whose path is the string itself when it starts with '/', and the
including source's current directory prepended to the string otherwise; and
`separate_filepath` splits the including file's path at the last '/'
unconditionally: directory and name concatenate back to the path, the name
holds no '/', and the directory is empty or ends with '/'. -/
theorem relative_to_spec (src : Parseable) (file_name : String) (p : String)
    (h : file_name ≠ "") :
    ((relative_to src file_name).kind =
      SourceKind.file
        (if starts_with_slash file_name then file_name else src.cur_dir ++ file_name)) ∧
    ((new_file p src.initialOptions).cur_dir = (separate_filepath p).1) ∧
    ((separate_filepath p).1 ++ (separate_filepath p).2 = p) ∧
    ('/' ∉ (separate_filepath p).2.toList) ∧
    ((separate_filepath p).1 = "" ∨ ends_with (separate_filepath p).1 "/" = true) := by
  refine ⟨?_, rfl, ?_, ?_, ?_⟩
  · by_cases hs : starts_with_slash file_name = true <;>
      simp [relative_to, new_file, relative_resource, h, hs]
  · cases hr : rfind_char p.toList '/' with
    | none => rw [separate_filepath_eq_none hr]; rfl
    | some i =>
      rw [separate_filepath_eq_some hr, mk_append, List.take_append_drop]
      rfl
  · cases hr : rfind_char p.toList '/' with
    | none =>
      rw [separate_filepath_eq_none hr]
      exact rfind_char_none hr
    | some i =>
      rw [separate_filepath_eq_some hr]
      obtain ⟨hi, _, hnot⟩ := rfind_char_some hr
      exact hnot
  · cases hr : rfind_char p.toList '/' with
    | none =>
      rw [separate_filepath_eq_none hr]
      left
      rfl
    | some i =>
      right
      rw [separate_filepath_eq_some hr, ends_with_iff]
      obtain ⟨hi, hget, _⟩ := rfind_char_some hr
      refine ⟨p.toList.take i, ?_⟩
      show p.toList.take i ++ ['/'] = (String.mk (p.toList.take (i + 1))).toList
      have hmk : (String.mk (p.toList.take (i + 1))).toList = p.toList.take (i + 1) := rfl
      rw [hmk, List.take_succ, List.getElem?_eq_getElem hi, hget]
      rfl

/-- C6: the options produced by `fixup_options` carry an includer that composes
the application-provided includer (when one is installed) with the default
includer as a fallback, so the default includer is always reachable; and this
fixup is applied on every parse entry point: `parse(options)` goes through
`parse_value(options)`, and `parse_value` / `parse_document` fix up their base
options before dispatching. -/
theorem fixup_includer_composition (env : ParseEnv) (src : Parseable)
    (base : ConfigParseOptions) :
    ((fixup_options_kind src.kind base).includer =
      some (Includer.full
        ((base.includer.map fun i => Includer.withFallback i Includer.dflt).getD
          Includer.dflt))) ∧
    (∀ inc, (fixup_options_kind src.kind base).includer = some inc →
      reaches_default inc = true) ∧
    (parse_value env src base =
      parse_value_at env src (effective_origin src (fixup_options_kind src.kind base))
        (fixup_options_kind src.kind base)) ∧
    (parse_document env src base =
      parse_document_at env src (effective_origin src (fixup_options_kind src.kind base))
        (fixup_options_kind src.kind base)) ∧
    ((parse_st env src base (some [])).1 =
      (parse_value env src base).bind force_parsed_to_object) := by
  refine ⟨fixup_includer_eq src.kind base, ?_, rfl, rfl, ?_⟩
  · intro inc hinc
    rw [fixup_includer_eq] at hinc
    cases hb : base.includer with
    | none =>
      rw [hb] at hinc
      simp only [Option.map_none, Option.getD_none, Option.some.injEq] at hinc
      rw [← hinc]
      rfl
    | some i =>
      rw [hb] at hinc
      simp only [Option.map_some, Option.getD_some, Option.some.injEq] at hinc
      rw [← hinc]
      simp [reaches_default]
  · simp only [parse_st, Option.getD_some]
    rw [if_neg (by simp [MAX_INCLUDE_DEPTH])]

/-- C8: for every source, both `parse` overloads raise a wrong_type error
carrying the parsed value's origin and its type name when the successfully
parsed root value is not an object, and return the root unchanged when it is
an object. -/
theorem parse_forces_root_object (env : ParseEnv) (src : Parseable)
    (base : ConfigParseOptions) (stack : List Parseable) (v : Value)
    (hdepth : stack.length < MAX_INCLUDE_DEPTH) :
    (parse_value env src base = Except.ok v →
      (((∃ o fields, v = Value.object o fields) →
        (parse_st env src base (some stack)).1 = Except.ok v) ∧
       (∀ o tn, v = Value.nonObject o tn →
        (parse_st env src base (some stack)).1 =
          Except.error (ConfigError.wrongType o "" "object at file root" tn)))) ∧
    (parse_value env src default_parse_options = Except.ok v →
      (((∃ o fields, v = Value.object o fields) → parse_noarg env src = Except.ok v) ∧
       (∀ o tn, v = Value.nonObject o tn →
        parse_noarg env src =
          Except.error (ConfigError.wrongType o "" "object at file root" tn)))) := by
  have hst : (parse_st env src base (some stack)).1 =
      (parse_value env src base).bind force_parsed_to_object := by
    simp only [parse_st, Option.getD_some]
    rw [if_neg (Nat.not_le.mpr hdepth)]
  constructor
  · intro hok
    constructor
    · rintro ⟨o, fields, rfl⟩
      rw [hst, hok]
      rfl
    · rintro o tn rfl
      rw [hst, hok]
      rfl
  · intro hok
    constructor
    · rintro ⟨o, fields, rfl⟩
      rw [parse_noarg, hok]
      rfl
    · rintro o tn rfl
      rw [parse_noarg, hok]
      rfl

/-- C9: for every call to `parse_document`, if reading or parsing fails and
allow_missing is set, the result is a document whose root holds exactly one
empty object node at the source's origin unchanged — no " (not found)" suffix
(appending that suffix would change the origin); if allow_missing is not set,
`parse_document` raises a generic config error prefixed "exception loading ",
which is not an io-kind error. -/
theorem parse_document_error_policy (env : ParseEnv) (src : Parseable)
    (base : ConfigParseOptions) (msg : String)
    (hod : base.origin_description = none)
    (hfail : raw_parse_document env src (initial_origin src)
        (fixup_options_kind src.kind base) = Except.error msg) :
    ((fixup_options_kind src.kind base).allow_missing = true →
      parse_document env src base =
        Except.ok (ConfigDocument.mk [ConfigNode.nodeObject []] (initial_origin src))) ∧
    ((fixup_options_kind src.kind base).allow_missing = false →
      parse_document env src base =
        Except.error (ConfigError.generic
          ("exception loading " ++ initial_origin src ++ ": " ++ msg)) ∧
      (ConfigError.generic
        ("exception loading " ++ initial_origin src ++ ": " ++ msg)).is_io = false) ∧
    (initial_origin src ++ " (not found)" ≠ initial_origin src) := by
  have heo : effective_origin src (fixup_options_kind src.kind base) = initial_origin src := by
    rw [effective_origin, fixup_origin_description, hod]
    rfl
  refine ⟨?_, ?_, ?_⟩
  · intro ham
    simp only [parse_document, heo, parse_document_at, hfail, ham, if_true]
  · intro ham
    refine ⟨?_, rfl⟩
    simp only [parse_document, heo, parse_document_at, hfail, ham]
    simp
  · intro heq
    have hlen := congrArg String.length heq
    rw [String.length_append] at hlen
    have h12 : (" (not found)" : String).length = 12 := rfl
    rw [h12] at hlen
    omega

/-- C7: `config_render_options::concise()` returns render options in which all
four toggles (comments, origin_comments, formatted, json) are off. -/
theorem concise_all_off :
    ConfigRenderOptions.concise.comments = false ∧
    ConfigRenderOptions.concise.origin_comments = false ∧
    ConfigRenderOptions.concise.formatted = false ∧
    ConfigRenderOptions.concise.json = false :=
  ⟨rfl, rfl, rfl, rfl⟩

/-- C10: a default-constructed `config_render_options` has all four toggles
(origin_comments, comments, formatted, json) set to true — in particular the
comments toggles that make the default rendering contain comments are on, and
the result differs from the concise (all-off) options. -/
theorem default_render_verbose :
    ConfigRenderOptions.default_options.origin_comments = true ∧
    ConfigRenderOptions.default_options.comments = true ∧
    ConfigRenderOptions.default_options.formatted = true ∧
    ConfigRenderOptions.default_options.json = true ∧
    ConfigRenderOptions.default_options ≠ ConfigRenderOptions.concise :=
  ⟨rfl, rfl, rfl, rfl, by decide⟩

/-- C1 witness: the missing file "a.conf", with and without allow_missing. -/
theorem parse_value_error_policy_witness :
    parse_value env_missing fileA base_allow =
      Except.ok (Value.object ("file: a.conf" ++ " (not found)") []) ∧
    parse_value env_missing fileS base_strict =
      Except.error (ConfigError.io "file: a.conf" "not found") :=
  ⟨(parse_value_error_policy env_missing fileA base_allow "not found" rfl rfl).1 rfl,
   (parse_value_error_policy env_missing fileS base_strict "not found" rfl rfl).2 rfl⟩

/-- C2 witness: a stack of 50 entries triggers the cycle-trace parse error. -/
theorem parse_depth_cap_witness :
    parse_st env_missing fileA base_allow (some (List.replicate 50 fileA)) =
      (Except.error (ConfigError.parseError (initial_origin fileA)
        (cycleMessage (List.replicate 50 fileA))),
       some (List.replicate 50 fileA)) :=
  (parse_depth_cap env_missing fileA base_allow (List.replicate 50 fileA)
    (by simp [MAX_INCLUDE_DEPTH])).1

/-- C5 witness: "extra.conf" included from "/etc/app/main.conf" resolves into
the including file's directory. -/
theorem relative_to_spec_witness :
    (relative_to (new_file "/etc/app/main.conf" base_allow) "extra.conf").kind =
      SourceKind.file "/etc/app/extra.conf" :=
  ((relative_to_spec (new_file "/etc/app/main.conf" base_allow) "extra.conf"
    "/etc/app/main.conf" (by decide)).1).trans (by decide)

/-- C8 witness: a root parsed as a list raises wrong_type at the list's origin. -/
theorem parse_forces_root_object_witness :
    (parse_st env_list_root fileS base_strict (some [])).1 =
      Except.error (ConfigError.wrongType "file: a.conf" "" "object at file root" "list") :=
  (((parse_forces_root_object env_list_root fileS base_strict []
      (Value.nonObject "file: a.conf" "list") (by decide)).1) rfl).2 "file: a.conf" "list" rfl

/-- C9 witness: the missing file "a.conf", with and without allow_missing. -/
theorem parse_document_error_policy_witness :
    parse_document env_missing fileA base_allow =
      Except.ok (ConfigDocument.mk [ConfigNode.nodeObject []] (initial_origin fileA)) ∧
    parse_document env_missing fileS base_strict =
      Except.error (ConfigError.generic
        ("exception loading " ++ "file: a.conf" ++ ": " ++ "not found")) :=
  ⟨(parse_document_error_policy env_missing fileA base_allow "not found" rfl rfl).1 rfl,
   ((parse_document_error_policy env_missing fileS base_strict "not found" rfl rfl).2.1 rfl).1⟩

end Hocon
